import Mathlib

/-!
A shallow embedding of `src/lsh.c` (a minimal interactive shell) and proofs
about its main loop: line reading, tokenization, builtin dispatch and
external-process launching.

Modelling conventions:
* C strings are Lean `String`/`List Char` without embedded NUL subtleties;
  the terminating `'\x00'` written by the C code is modelled explicitly in
  the line-reader buffer but the returned line is the written prefix.
* The `NULL` sentinel terminating the token array corresponds to the end of
  a Lean list; `args[0] == NULL` corresponds to the empty list.
* External effects (fork, execvp, waitpid, chdir, malloc/realloc, getcwd)
  are modelled by explicit oracles passed in as parameters, so every
  definition is executable on concrete inputs.
-/

namespace Lsh

/-- `#define LSH_RL_BUFSIZE 1024` -/
def LSH_RL_BUFSIZE : Nat := 1024

/-- `#define LSH_TOK_BUFSIZE 64` -/
def LSH_TOK_BUFSIZE : Nat := 64

/-- `#define LSH_TOK_DELIM " \t\r\n\a"` — space, tab, carriage return,
newline, bell. -/
def LSH_TOK_DELIM : List Char := [' ', '\t', '\r', '\n', '\x07']

/-- `#define LSH_CURRDIR_BUFSIZE 16` -/
def LSH_CURRDIR_BUFSIZE : Nat := 16

/-- Whether a character is one of the `strtok` delimiters. -/
def isDelim (c : Char) : Bool := LSH_TOK_DELIM.contains c

/-- A fixed stand-in for the indeterminate contents of freshly
`malloc`ed / `realloc`-extended memory in `lsh_read_line`. -/
def junkChar : Char := '#'

/-- The `while (1)` loop of `lsh_read_line`. The input stream is a
`List Char`; the end of the list is EOF. The buffer is a list whose length
is the allocated capacity `bufsize`; a write is `List.set` at `position`.
When `position` reaches `bufsize` the buffer is `realloc`ed: capacity grows
by `LSH_RL_BUFSIZE` and (as `realloc` guarantees) the old contents are
preserved, the new tail being indeterminate. On `'\n'` or EOF the code
writes `'\x00'` at `position` and returns the buffer. Returns
(buffer, position, remaining input stream). -/
def lsh_read_line_loop : List Char → List Char → Nat → Nat → List Char × Nat × List Char
  | [], buffer, position, _bufsize =>
      (buffer.set position '\x00', position, [])
  | c :: rest, buffer, position, bufsize =>
      if c = '\n' then
        (buffer.set position '\x00', position, rest)
      else
        let buffer2 := buffer.set position c
        let position2 := position + 1
        if position2 ≥ bufsize then
          lsh_read_line_loop rest (buffer2 ++ List.replicate LSH_RL_BUFSIZE junkChar)
            position2 (bufsize + LSH_RL_BUFSIZE)
        else
          lsh_read_line_loop rest buffer2 position2 bufsize

/-- `lsh_read_line`: reads characters until newline or EOF, growing the
buffer by `LSH_RL_BUFSIZE` whenever the next write position would exceed
capacity. Returns the completed line (the written prefix of the buffer,
i.e. the C string up to the terminator) together with the rest of the
input stream. -/
def lsh_read_line (input : List Char) : String × List Char :=
  let r := lsh_read_line_loop input (List.replicate LSH_RL_BUFSIZE junkChar) 0 LSH_RL_BUFSIZE
  (String.mk (r.1.take r.2.1), r.2.2)

/-- The `strtok` collection loop of `lsh_split_line`: `acc` is the
(reversed) run of non-delimiter characters of the token currently being
scanned.  A delimiter (or the end of the line) closes the current token if
one is open; runs of delimiters yield no empty tokens, exactly as `strtok`
behaves.  The returned list is the token array up to (not including) the
`NULL` sentinel. -/
def lsh_split_go : List Char → List Char → List String
  | acc, [] => if acc.isEmpty then [] else [String.mk acc.reverse]
  | acc, c :: cs =>
      if isDelim c then
        if acc.isEmpty then lsh_split_go [] cs
        else String.mk acc.reverse :: lsh_split_go [] cs
      else
        lsh_split_go (c :: acc) cs

/-- `lsh_split_line`: splits a line on any run of `LSH_TOK_DELIM`
characters via repeated `strtok`. -/
def lsh_split_line (line : List Char) : List String :=
  lsh_split_go [] line

/-- `builtin_str`: the registry of builtin command names, in source
order. -/
def builtin_str : List String := ["cd", "help", "exit"]

/-- One result of a `waitpid(pid, &status, WUNTRACED)` call, as the parent
observes it: `fail` is `wpid == -1`; `exited` is `WIFEXITED(status)`;
`signaled` is `WIFSIGNALED(status)`; `stopped` is a stop notification
(neither exited nor signaled). -/
inductive WaitRes where
  | fail
  | exited
  | signaled
  | stopped
deriving DecidableEq, Repr

/-- A wait status that ends the `do ... while` wait loop normally. -/
def WaitRes.isTerminal : WaitRes → Bool
  | .exited => true
  | .signaled => true
  | _ => false

/-- Outcome of the parent's wait loop. -/
inductive WaitOutcome where
  | done
  | fatal
  | pending
deriving DecidableEq, Repr

/-- The parent's `do { wpid = waitpid(...); if (wpid == -1) exit; }
while (!WIFEXITED && !WIFSIGNALED)` loop, driven by the oracle sequence of
`waitpid` results. `.pending` means the oracle sequence ran out before a
terminal status (the real parent would still be blocked waiting). -/
def lsh_waitloop : List WaitRes → WaitOutcome
  | [] => .pending
  | .fail :: _ => .fatal
  | .exited :: _ => .done
  | .signaled :: _ => .done
  | .stopped :: rest => lsh_waitloop rest

/-- What becomes of the child process created by `lsh_launch`:
`imageReplaced` — `execvp` succeeded, the child now runs the external
program; `exitFailure` — `execvp` returned `-1`, the child called
`perror("lsh")` and then `exit(EXIT_FAILURE)`.  In neither case does the
child fall back into the shell's main-loop logic. -/
inductive ChildOutcome where
  | imageReplaced
  | exitFailure
deriving DecidableEq, Repr

/-- The child branch of `lsh_launch` (`pid == 0`). -/
def lsh_child (execOk : Bool) : ChildOutcome :=
  if execOk then .imageReplaced else .exitFailure

/-- Oracle for one `lsh_launch` call: whether `fork` succeeds, whether
`execvp` succeeds in the child, and the sequence of `waitpid` results seen
by the parent. -/
structure LaunchEnv where
  forkOk : Bool
  execOk : Bool
  waits : List WaitRes
deriving Repr

/-- Result of a shell function from the parent shell's point of view:
`signal s` — the function returned continuation signal `s`; `fatalExit` —
the shell process itself called `exit(EXIT_FAILURE)`; `pending` — the
oracle did not determine a result (still blocked). -/
inductive ExecResult where
  | signal (s : Int)
  | fatalExit
  | pending
deriving DecidableEq, Repr

/-- Result of `lsh_launch`: the parent-side result and, when a child was
forked, its outcome. -/
structure LaunchResult where
  result : ExecResult
  child : Option ChildOutcome
deriving DecidableEq, Repr

/-- `lsh_launch`: fork; the child attempts `execvp` (reporting failure and
exiting with `EXIT_FAILURE` if it fails); on fork failure the parent
reports the error and returns `1`; otherwise the parent waits repeatedly
on the child (`WUNTRACED`), treating a `waitpid` failure as fatal, until
the child exits or is signaled, then returns `1`. -/
def lsh_launch (env : LaunchEnv) : LaunchResult :=
  if env.forkOk then
    match lsh_waitloop env.waits with
    | .done => ⟨.signal 1, some (lsh_child env.execOk)⟩
    | .fatal => ⟨.fatalExit, some (lsh_child env.execOk)⟩
    | .pending => ⟨.pending, some (lsh_child env.execOk)⟩
  else
    ⟨.signal 1, none⟩

/-- Result of `lsh_cd`: the continuation signal, the working directory
after the call, and the messages written to the diagnostic stream. -/
structure CdResult where
  signal : Int
  cwd : String
  stderrMsgs : List String
deriving DecidableEq, Repr

/-- `lsh_cd`: if `args[1]` is the sentinel, print a usage error; otherwise
`chdir(args[1])`, printing the system error on failure.  Always returns
`1`.  `chdirRes` is the oracle for `chdir`: `chdirRes d = some c` means
`chdir(d)` succeeds and the working directory becomes `c`; `none` means it
fails. -/
def lsh_cd (args : List String) (chdirRes : String → Option String) (cwd : String) : CdResult :=
  match args[1]? with
  | none => ⟨1, cwd, ["lsh: expected argument to \"cd\""]⟩
  | some d =>
      match chdirRes d with
      | none => ⟨1, cwd, ["lsh: chdir failed"]⟩
      | some c => ⟨1, c, []⟩

/-- `lsh_help`: prints the banner and the builtin names; returns `1`. -/
def lsh_help (_args : List String) : Int := 1

/-- `lsh_exit`: returns `0` unconditionally, ignoring its arguments. -/
def lsh_exit (_args : List String) : Int := 0

/-- Oracle for one dispatcher call: the `chdir` oracle used by `lsh_cd`
and the launch oracle used by `lsh_launch`. -/
structure ShellEnv where
  chdirRes : String → Option String
  launchEnv : LaunchEnv

/-- Result of `lsh_execute`: the continuation result, which builtin (if
any) was invoked, whether `lsh_launch` was invoked (i.e. whether a process
spawn was attempted), and the working directory afterwards. -/
structure ExecOutcome where
  result : ExecResult
  builtinCalled : Option String
  launched : Bool
  cwd : String

/-- `lsh_execute`: if `args[0]` is the sentinel (empty command), return
`1`; otherwise scan `builtin_str = ["cd", "help", "exit"]` in order for an
exact match of `args[0]` and invoke the matching handler; on no match,
delegate to `lsh_launch`.  The registry scan loop is unrolled over the
three fixed entries. -/
def lsh_execute (args : List String) (env : ShellEnv) (cwd : String) : ExecOutcome :=
  match args with
  | [] => ⟨.signal 1, none, false, cwd⟩
  | cmd :: _ =>
      if cmd = "cd" then
        let r := lsh_cd args env.chdirRes cwd
        ⟨.signal r.signal, some "cd", false, r.cwd⟩
      else if cmd = "help" then
        ⟨.signal (lsh_help args), some "help", false, cwd⟩
      else if cmd = "exit" then
        ⟨.signal (lsh_exit args), some "exit", false, cwd⟩
      else
        ⟨(lsh_launch env.launchEnv).result, none, true, cwd⟩

/-- Outcome of `lsh_shellprompt`: `printed` — the prompt was written;
`fatalExit` — a checked allocation failed and the process exited with
`EXIT_FAILURE`; `nullBuffer` — `getcwd` was reached with a `NULL` buffer
(the unchecked initial `malloc` failed), undefined behavior and in any
case not a diagnostic-and-exit; `pending` — the oracle ran out. -/
inductive PromptOutcome where
  | printed
  | fatalExit
  | nullBuffer
  | pending
deriving DecidableEq, Repr

/-- The `while (getcwd(curr_dir, size) == NULL)` loop of
`lsh_shellprompt`.  `cwdFits size` says whether `getcwd` succeeds with a
buffer of `size` bytes; `reallocs` is the oracle of `realloc` results
(`true` = success), consumed one per failed `getcwd`; `.pending` means the
oracle ran out.  Each loop body grows `size` by `LSH_CURRDIR_BUFSIZE` and
`realloc`s; the `realloc` result is checked and failure is fatal. -/
def lsh_shellprompt_loop (cwdFits : Nat → Bool) : List Bool → Nat → Bool → PromptOutcome
  | reallocs, size, bufNull =>
      if bufNull then .nullBuffer
      else if cwdFits size then .printed
      else
        match reallocs with
        | [] => .pending
        | r :: rs =>
            if r then lsh_shellprompt_loop cwdFits rs (size + LSH_CURRDIR_BUFSIZE) false
            else .fatalExit

/-- `lsh_shellprompt`: `malloc` a `LSH_CURRDIR_BUFSIZE`-byte buffer —
`alloc0` is whether that `malloc` succeeds, and the source checks NO null
result here — then loop `getcwd`, growing the buffer on failure, and print
the `user@cwd> ` prompt. -/
def lsh_shellprompt (alloc0 : Bool) (reallocs : List Bool) (cwdFits : Nat → Bool) :
    PromptOutcome :=
  lsh_shellprompt_loop cwdFits reallocs LSH_CURRDIR_BUFSIZE (!alloc0)

/-- One iteration of the body of `lsh_loop`: prompt (elided — it does not
affect the loop state), `lsh_read_line`, `lsh_split_line`, `lsh_execute`.
Returns the `lsh_execute` outcome and the rest of the input stream. -/
def lsh_loop_iteration (stdin : List Char) (env : ShellEnv) (cwd : String) :
    ExecOutcome × List Char :=
  let r := lsh_read_line stdin
  (lsh_execute (lsh_split_line r.1.data) env cwd, r.2)

/-- Outcome of a fuelled run of `lsh_loop`: `terminated` — the `do/while`
exited because `status` became `0`; `outOfFuel` — the fuel ran out with
the loop still going; `aborted` — the shell process exited fatally inside
an iteration; `stuck` — an iteration's oracle was exhausted. -/
inductive LoopResult where
  | terminated
  | outOfFuel
  | aborted
  | stuck
deriving DecidableEq, Repr

/-- The `do { ... } while (status);` of `lsh_loop`, with fuel bounding the
number of iterations and a stream `envs` of per-iteration oracles. -/
def lsh_loop_go : Nat → List Char → (Nat → ShellEnv) → Nat → String → LoopResult
  | 0, _, _, _, _ => .outOfFuel
  | fuel + 1, stdin, envs, i, cwd =>
      let r := lsh_loop_iteration stdin (envs i) cwd
      match r.1.result with
      | .signal s => if s = 0 then .terminated else lsh_loop_go fuel r.2 envs (i + 1) r.1.cwd
      | .fatalExit => .aborted
      | .pending => .stuck

/-- A concrete oracle for witnesses: `chdir` always fails, `fork` and
`execvp` succeed, the child exits immediately. -/
def env0 : ShellEnv :=
  ⟨fun _ => none, ⟨true, true, [.exited]⟩⟩

/-! ### Helper lemmas -/

theorem take_succ_set (l : List Char) (p : Nat) (c : Char) (h : p < l.length) :
    (l.set p c).take (p + 1) = l.take p ++ [c] := by
  induction l generalizing p with
  | nil => simp at h
  | cons a as ih =>
      cases p with
      | zero => simp
      | succ p =>
          have h2 : p < as.length := by simpa using h
          simp [List.take_succ_cons, ih p h2]

theorem take_set_self (l : List Char) (p : Nat) (c : Char) :
    (l.set p c).take p = l.take p := by
  rw [List.set_take]
  exact List.set_eq_of_length_le (by rw [List.length_take]; exact Nat.min_le_left _ _)

/-- The wrote-so-far invariant of the `lsh_read_line` loop: the returned
written prefix is what was already written followed by the input up to the
first newline, and the rest of the stream is what follows that newline. -/
theorem lsh_read_line_loop_spec (input : List Char) :
    ∀ (buffer : List Char) (position bufsize : Nat),
      buffer.length = bufsize → position < bufsize →
      (lsh_read_line_loop input buffer position bufsize).1.take
          (lsh_read_line_loop input buffer position bufsize).2.1 =
        buffer.take position ++ input.takeWhile (fun c => c != '\n')
      ∧ (lsh_read_line_loop input buffer position bufsize).2.2 =
          (input.dropWhile (fun c => c != '\n')).drop 1 := by
  induction input with
  | nil =>
      intro buffer position bufsize _hlen _hpos
      exact ⟨by simp [lsh_read_line_loop, take_set_self], rfl⟩
  | cons c rest ih =>
      intro buffer position bufsize hlen hpos
      by_cases hc : c = '\n'
      · subst hc
        refine ⟨?_, ?_⟩
        · simp [lsh_read_line_loop, take_set_self, List.takeWhile_cons]
        · simp [lsh_read_line_loop, List.dropWhile_cons]
      · have hcb : (c != '\n') = true := by simp [hc]
        have heq : lsh_read_line_loop (c :: rest) buffer position bufsize =
            if position + 1 ≥ bufsize then
              lsh_read_line_loop rest
                (buffer.set position c ++ List.replicate LSH_RL_BUFSIZE junkChar)
                (position + 1) (bufsize + LSH_RL_BUFSIZE)
            else
              lsh_read_line_loop rest (buffer.set position c) (position + 1) bufsize := by
          simp [lsh_read_line_loop, hc]
        have htw : (c :: rest).takeWhile (fun c => c != '\n') =
            c :: rest.takeWhile (fun c => c != '\n') := by
          simp [List.takeWhile_cons, hcb]
        have hdw : (c :: rest).dropWhile (fun c => c != '\n') =
            rest.dropWhile (fun c => c != '\n') := by
          simp [List.dropWhile_cons, hcb]
        by_cases hgrow : position + 1 ≥ bufsize
        · have hlen2 : (buffer.set position c ++
              List.replicate LSH_RL_BUFSIZE junkChar).length = bufsize + LSH_RL_BUFSIZE := by
            simp [hlen]
          have hpos2 : position + 1 < bufsize + LSH_RL_BUFSIZE := by
            have : (0 : Nat) < LSH_RL_BUFSIZE := by decide
            omega
          obtain ⟨ih1, ih2⟩ := ih _ (position + 1) (bufsize + LSH_RL_BUFSIZE) hlen2 hpos2
          have hple : position + 1 ≤ (buffer.set position c).length := by
            simp [hlen]; omega
          refine ⟨?_, ?_⟩
          · rw [heq, if_pos hgrow, ih1, List.take_append_of_le_length hple,
              take_succ_set buffer position c (by omega), htw]
            simp
          · rw [heq, if_pos hgrow, ih2, hdw]
        · have hpos2 : position + 1 < bufsize := by omega
          obtain ⟨ih1, ih2⟩ := ih (buffer.set position c) (position + 1) bufsize
            (by simp [hlen]) hpos2
          refine ⟨?_, ?_⟩
          · rw [heq, if_neg hgrow, ih1, take_succ_set buffer position c (by omega), htw]
            simp
          · rw [heq, if_neg hgrow, ih2, hdw]

/-- A line consisting only of delimiter characters yields no tokens. -/
theorem split_go_all_delim (l : List Char) (h : ∀ c ∈ l, isDelim c = true) :
    lsh_split_go [] l = [] := by
  induction l with
  | nil => rfl
  | cons c cs ih =>
      have hc : isDelim c = true := h c (by simp)
      simp only [lsh_split_go, hc, if_true, List.isEmpty_nil, ite_true]
      exact ih fun x hx => h x (by simp [hx])

/-- Tokens produced by the `strtok` loop are nonempty and contain no
delimiter characters, provided the open-token accumulator does not
either. -/
theorem split_go_sound (l : List Char) :
    ∀ acc : List Char, (∀ c ∈ acc, isDelim c = false) →
      ∀ t ∈ lsh_split_go acc l, t.data ≠ [] ∧ ∀ c ∈ t.data, isDelim c = false := by
  induction l with
  | nil =>
      intro acc hacc t ht
      by_cases he : acc.isEmpty
      · simp [lsh_split_go, he] at ht
      · have hne : acc ≠ [] := by simpa [List.isEmpty_iff] using he
        simp [lsh_split_go, he] at ht
        subst ht
        refine ⟨?_, ?_⟩
        · show acc.reverse ≠ []
          simp [hne]
        · intro x hx
          exact hacc x (List.mem_reverse.mp hx)
  | cons c cs ih =>
      intro acc hacc t ht
      by_cases hd : isDelim c = true
      · by_cases he : acc.isEmpty
        · simp [lsh_split_go, hd, he] at ht
          exact ih [] (by simp) t ht
        · have hne : acc ≠ [] := by simpa [List.isEmpty_iff] using he
          simp [lsh_split_go, hd, he] at ht
          rcases ht with ht | ht
          · subst ht
            refine ⟨?_, ?_⟩
            · show acc.reverse ≠ []
              simp [hne]
            · intro x hx
              exact hacc x (List.mem_reverse.mp hx)
          · exact ih [] (by simp) t ht
      · have hd2 : isDelim c = false := by simpa using hd
        simp [lsh_split_go, hd2] at ht
        refine ih (c :: acc) ?_ t ht
        intro x hx
        rcases List.mem_cons.mp hx with hx | hx
        · rw [hx]; exact hd2
        · exact hacc x hx

/-- `lsh_cd` returns continuation signal `1` on every path. -/
theorem lsh_cd_signal_eq_one (args : List String) (f : String → Option String)
    (cwd : String) : (lsh_cd args f cwd).signal = 1 := by
  unfold lsh_cd
  split
  · rfl
  · split <;> rfl

/-- `lsh_launch` only ever produces the continuation signal `1` (its other
outcomes are a fatal exit or still being blocked). -/
theorem lsh_launch_signal_eq_one (env : LaunchEnv) (s : Int)
    (h : (lsh_launch env).result = .signal s) : s = 1 := by
  unfold lsh_launch at h
  by_cases hf : env.forkOk
  · rw [if_pos hf] at h
    cases hw : lsh_waitloop env.waits <;> rw [hw] at h <;> simp_all
  · rw [if_neg hf] at h
    simpa using h.symm

/-- Dispatching a token sequence headed by `"exit"` calls the `exit`
builtin, which returns `0`. -/
theorem execute_exit (args : List String) (env : ShellEnv) (cwd : String)
    (h : args.head? = some "exit") :
    lsh_execute args env cwd = ⟨.signal 0, some "exit", false, cwd⟩ := by
  cases args with
  | nil => simp at h
  | cons cmd rest =>
      have hcmd : cmd = "exit" := by simpa using h
      subst hcmd
      rfl

/-- The dispatcher's continuation signal is `0` exactly when the first
token is `"exit"`. -/
theorem execute_signal_zero_iff (args : List String) (env : ShellEnv) (cwd : String)
    (s : Int) (h : (lsh_execute args env cwd).result = .signal s) :
    s = 0 ↔ args.head? = some "exit" := by
  cases args with
  | nil =>
      have hs : s = 1 := by simpa [lsh_execute] using h.symm
      subst hs
      simp
  | cons cmd rest =>
      by_cases h1 : cmd = "cd"
      · subst h1
        have hs : s = (lsh_cd ("cd" :: rest) env.chdirRes cwd).signal := by
          simpa [lsh_execute] using h.symm
        rw [hs, lsh_cd_signal_eq_one]
        simp
      · by_cases h2 : cmd = "help"
        · subst h2
          have hs : s = 1 := by simpa [lsh_execute, lsh_help] using h.symm
          subst hs
          simp
        · by_cases h3 : cmd = "exit"
          · subst h3
            have hs : s = 0 := by simpa [lsh_execute, lsh_exit] using h.symm
            subst hs
            simp
          · have hl : (lsh_launch env.launchEnv).result = .signal s := by
              simpa [lsh_execute, h1, h2, h3] using h
            have hs := lsh_launch_signal_eq_one env.launchEnv s hl
            subst hs
            simp [h3]

/-- The wait loop finishes normally exactly when the `waitpid` result
sequence is some stop notifications followed by a terminal (exited or
signaled) status. -/
theorem waitloop_done_iff (l : List WaitRes) :
    lsh_waitloop l = .done ↔
      ∃ n t rest, l = List.replicate n WaitRes.stopped ++ t :: rest ∧
        t.isTerminal = true := by
  constructor
  · intro h
    induction l with
    | nil => simp [lsh_waitloop] at h
    | cons w tl ih =>
        cases w with
        | fail => simp [lsh_waitloop] at h
        | exited => exact ⟨0, .exited, tl, by simp, rfl⟩
        | signaled => exact ⟨0, .signaled, tl, by simp, rfl⟩
        | stopped =>
            obtain ⟨n, t, rest, heq, ht⟩ := ih (by simpa [lsh_waitloop] using h)
            exact ⟨n + 1, t, rest, by simp [List.replicate_succ, heq], ht⟩
  · rintro ⟨n, t, rest, heq, ht⟩
    subst heq
    induction n with
    | zero =>
        cases t with
        | fail => simp [WaitRes.isTerminal] at ht
        | stopped => simp [WaitRes.isTerminal] at ht
        | exited => rfl
        | signaled => rfl
    | succ n ih => simpa [List.replicate_succ, lsh_waitloop] using ih

/-- A `waitpid` failure after any number of stop notifications makes the
wait loop fatal. -/
theorem waitloop_stopped_then_fail (n : Nat) (rest : List WaitRes) :
    lsh_waitloop (List.replicate n WaitRes.stopped ++ WaitRes.fail :: rest) = .fatal := by
  induction n with
  | zero => rfl
  | succ n ih => simpa [List.replicate_succ, lsh_waitloop] using ih

/-! ### Claim theorems -/

/-- C1: for every token sequence whose first token is `"exit"`, regardless
of the following arguments, `lsh_exit` returns `0` and the dispatcher
returns continuation signal `0`; moreover one step of the main loop's
`do/while` on a line whose first token is `"exit"` terminates the loop. -/
theorem exit_always_terminates_loop :
    (∀ (args : List String) (env : ShellEnv) (cwd : String),
        args.head? = some "exit" →
        lsh_exit args = 0 ∧ (lsh_execute args env cwd).result = .signal 0)
    ∧ (∀ (fuel : Nat) (stdin : List Char) (envs : Nat → ShellEnv) (i : Nat) (cwd : String),
        (lsh_split_line (lsh_read_line stdin).1.data).head? = some "exit" →
        lsh_loop_go (fuel + 1) stdin envs i cwd = .terminated) := by
  constructor
  · intro args env cwd h
    exact ⟨rfl, by rw [execute_exit args env cwd h]⟩
  · intro fuel stdin envs i cwd h
    have h2 := execute_exit (lsh_split_line (lsh_read_line stdin).1.data) (envs i) cwd h
    simp [lsh_loop_go, lsh_loop_iteration, h2]

/-- Witness for C1 at the concrete token sequence `["exit", "now"]`. -/
theorem exit_always_terminates_loop_witness :
    lsh_exit ["exit", "now"] = 0
    ∧ (lsh_execute ["exit", "now"] env0 "/").result = .signal 0 :=
  exit_always_terminates_loop.1 ["exit", "now"] env0 "/" rfl

/-- C2: an input line made only of delimiter characters (or empty)
tokenizes to the bare sentinel (the empty token list), and the dispatcher
then returns continuation signal `1` without invoking any builtin and
without invoking `lsh_launch` (no process spawn is attempted). -/
theorem whitespace_only_line_is_silent :
    ∀ (line : List Char) (env : ShellEnv) (cwd : String),
      (∀ c ∈ line, isDelim c = true) →
      lsh_split_line line = []
      ∧ (lsh_execute (lsh_split_line line) env cwd).result = .signal 1
      ∧ (lsh_execute (lsh_split_line line) env cwd).builtinCalled = none
      ∧ (lsh_execute (lsh_split_line line) env cwd).launched = false := by
  intro line env cwd h
  have h0 : lsh_split_line line = [] := split_go_all_delim line h
  rw [h0]
  exact ⟨rfl, rfl, rfl, rfl⟩

/-- Witness for C2 at the concrete all-whitespace line `"  \t "`. -/
theorem whitespace_only_line_is_silent_witness :
    lsh_split_line "  \t ".data = []
    ∧ (lsh_execute (lsh_split_line "  \t ".data) env0 "/").result = .signal 1
    ∧ (lsh_execute (lsh_split_line "  \t ".data) env0 "/").builtinCalled = none
    ∧ (lsh_execute (lsh_split_line "  \t ".data) env0 "/").launched = false :=
  whitespace_only_line_is_silent "  \t ".data env0 "/" (by decide)

/-- C3: every token the tokenizer produces is nonempty and contains no
delimiter character, and tokenizing `"echo  a   b"` yields exactly
`["echo", "a", "b"]` (followed by the sentinel, i.e. the end of the
list). -/
theorem tokenizer_no_delims_no_empties :
    (∀ (line : List Char) (t : String), t ∈ lsh_split_line line →
        t.data ≠ [] ∧ ∀ c ∈ t.data, isDelim c = false)
    ∧ lsh_split_line "echo  a   b".data = ["echo", "a", "b"] := by
  constructor
  · intro line t ht
    exact split_go_sound line [] (by simp) t ht
  · decide

/-- Witness for C3 at the token `"echo"` of the line `"echo  a   b"`. -/
theorem tokenizer_no_delims_no_empties_witness :
    "echo" ∈ lsh_split_line "echo  a   b".data
    ∧ ("echo".data ≠ [] ∧ ∀ c ∈ "echo".data, isDelim c = false) :=
  ⟨by decide, tokenizer_no_delims_no_empties.1 "echo  a   b".data "echo" (by decide)⟩

/-- C4: `lsh_cd` always returns continuation signal `1`; with no argument
it reports a usage error and leaves the working directory unchanged; with
an argument whose `chdir` fails it reports the error and leaves the
working directory unchanged. -/
theorem cd_always_continues :
    ∀ (args : List String) (chdirRes : String → Option String) (cwd : String),
      (lsh_cd args chdirRes cwd).signal = 1
      ∧ (args[1]? = none →
          (lsh_cd args chdirRes cwd).cwd = cwd
          ∧ (lsh_cd args chdirRes cwd).stderrMsgs ≠ [])
      ∧ (∀ d, args[1]? = some d → chdirRes d = none →
          (lsh_cd args chdirRes cwd).cwd = cwd
          ∧ (lsh_cd args chdirRes cwd).stderrMsgs ≠ []) := by
  intro args f cwd
  refine ⟨lsh_cd_signal_eq_one args f cwd, ?_, ?_⟩
  · intro h
    simp [lsh_cd, h]
  · intro d hd hf
    simp [lsh_cd, hd, hf]

/-- Witness for C4: `cd` with no argument, and `cd nope` with a failing
`chdir`. -/
theorem cd_always_continues_witness :
    (lsh_cd ["cd"] (fun _ => none) "/").signal = 1
    ∧ ((lsh_cd ["cd"] (fun _ => none) "/").cwd = "/"
        ∧ (lsh_cd ["cd"] (fun _ => none) "/").stderrMsgs ≠ [])
    ∧ ((lsh_cd ["cd", "nope"] (fun _ => none) "/").cwd = "/"
        ∧ (lsh_cd ["cd", "nope"] (fun _ => none) "/").stderrMsgs ≠ []) :=
  ⟨(cd_always_continues ["cd"] (fun _ => none) "/").1,
   (cd_always_continues ["cd"] (fun _ => none) "/").2.1 rfl,
   (cd_always_continues ["cd", "nope"] (fun _ => none) "/").2.2 "nope" rfl rfl⟩

/-- C5: the claim says every allocation failure, in the prompt renderer
too, is fatal with a diagnostic.  The source of `lsh_shellprompt` never
checks its initial `malloc`: when that allocation fails the renderer does
not terminate the process but proceeds to call `getcwd` with a `NULL`
buffer.  By contrast a failed `realloc` in the same function (third
conjunct) is checked and fatal, matching the checked allocations of
`lsh_read_line` and `lsh_split_line`. -/
theorem shellprompt_initial_malloc_unchecked :
    lsh_shellprompt false [] (fun _ => true) = .nullBuffer
    ∧ lsh_shellprompt false [] (fun _ => true) ≠ .fatalExit
    ∧ lsh_shellprompt true [false] (fun n => decide (LSH_CURRDIR_BUFSIZE < n)) = .fatalExit :=
  ⟨rfl, by decide, rfl⟩

/-- C6: when `fork` succeeds and `execvp` fails, the child reports the
error and exits with a failure status — it never returns to the main-loop
logic — while the parent, once its wait loop sees the child's terminal
status, returns continuation signal `1`. -/
theorem failed_exec_child_exits_shell_continues :
    ∀ env : LaunchEnv, env.forkOk = true → env.execOk = false →
      lsh_waitloop env.waits = .done →
      (lsh_launch env).child = some ChildOutcome.exitFailure
      ∧ (lsh_launch env).result = .signal 1 := by
  intro env hf he hw
  simp [lsh_launch, hf, hw, lsh_child, he]

/-- Witness for C6: fork succeeds, exec fails, the child's exit is
observed. -/
theorem failed_exec_child_exits_shell_continues_witness :
    (lsh_launch ⟨true, false, [WaitRes.exited]⟩).child = some ChildOutcome.exitFailure
    ∧ (lsh_launch ⟨true, false, [WaitRes.exited]⟩).result = .signal 1 :=
  failed_exec_child_exits_shell_continues ⟨true, false, [WaitRes.exited]⟩ rfl rfl rfl

/-- C7: after a successful fork, the parent returns continuation signal
`1` exactly when the `waitpid` result sequence is some stop notifications
followed by an exited/signaled status (it never returns while the child is
merely stopped), and a `waitpid` failure makes the parent exit fatally. -/
theorem parent_waits_through_stops :
    ∀ env : LaunchEnv, env.forkOk = true →
      (((lsh_launch env).result = .signal 1) ↔
        ∃ n t rest, env.waits = List.replicate n WaitRes.stopped ++ t :: rest ∧
          t.isTerminal = true)
      ∧ (∀ n rest, env.waits = List.replicate n WaitRes.stopped ++ WaitRes.fail :: rest →
          (lsh_launch env).result = .fatalExit) := by
  intro env hf
  constructor
  · rw [← waitloop_done_iff]
    constructor
    · intro h
      cases hw : lsh_waitloop env.waits with
      | done => rfl
      | fatal => simp [lsh_launch, hf, hw] at h
      | pending => simp [lsh_launch, hf, hw] at h
    · intro h
      simp [lsh_launch, hf, h]
  · intro n rest hw
    have hfatal : lsh_waitloop env.waits = .fatal := by
      rw [hw]; exact waitloop_stopped_then_fail n rest
    simp [lsh_launch, hf, hfatal]

/-- Witness for C7: a stop notification followed by an exit, and a stop
notification followed by a `waitpid` failure. -/
theorem parent_waits_through_stops_witness :
    (lsh_launch ⟨true, true, [WaitRes.stopped, WaitRes.exited]⟩).result = .signal 1
    ∧ (lsh_launch ⟨true, true, [WaitRes.stopped, WaitRes.fail]⟩).result = .fatalExit :=
  ⟨(parent_waits_through_stops ⟨true, true, [WaitRes.stopped, WaitRes.exited]⟩ rfl).1.mpr
      ⟨1, WaitRes.exited, [], rfl, rfl⟩,
   (parent_waits_through_stops ⟨true, true, [WaitRes.stopped, WaitRes.fail]⟩ rfl).2 1 [] rfl⟩

/-- C8: for every input stream — in particular one whose first line is
longer than the initial 1024-byte capacity — `lsh_read_line` returns
exactly the characters up to (excluding) the first newline or EOF: growth
by `LSH_RL_BUFSIZE` preserves what was written, and the newline/EOF is
replaced by the terminator rather than stored.  The rest of the stream is
what follows the newline. -/
theorem read_line_full_line :
    ∀ input : List Char,
      (lsh_read_line input).1 = String.mk (input.takeWhile (fun c => c != '\n'))
      ∧ (lsh_read_line input).2 = (input.dropWhile (fun c => c != '\n')).drop 1 := by
  intro input
  obtain ⟨h1, h2⟩ := lsh_read_line_loop_spec input (List.replicate LSH_RL_BUFSIZE junkChar)
    0 LSH_RL_BUFSIZE (by simp) (by decide)
  constructor
  · simp only [lsh_read_line]
    rw [h1]
    simp
  · simp only [lsh_read_line]
    exact h2

/-- C9: whenever the dispatcher produces a continuation signal at all, the
signal is `0` if and only if the first token is exactly `"exit"`. -/
theorem dispatcher_zero_iff_exit :
    ∀ (args : List String) (env : ShellEnv) (cwd : String) (s : Int),
      (lsh_execute args env cwd).result = .signal s →
      (s = 0 ↔ args.head? = some "exit") :=
  fun args env cwd s h => execute_signal_zero_iff args env cwd s h

/-- Witness for C9 at the concrete token sequence `["exit"]`. -/
theorem dispatcher_zero_iff_exit_witness :
    (0 : Int) = 0 ↔ (["exit"] : List String).head? = some "exit" :=
  dispatcher_zero_iff_exit ["exit"] env0 "/" 0 rfl

/-- C10: end-of-stream never terminates the shell: reading at EOF yields
the empty line, whose iteration returns continuation signal `1`, so the
loop (any amount of fuel, any oracles) never reaches `terminated` on an
exhausted input stream; and an iteration can only return signal `0` by
invoking the `exit` builtin. -/
theorem eof_never_terminates :
    (∀ (env : ShellEnv) (cwd : String),
        (lsh_loop_iteration [] env cwd).1.result = .signal 1)
    ∧ (∀ (fuel : Nat) (envs : Nat → ShellEnv) (i : Nat) (cwd : String),
        lsh_loop_go fuel [] envs i cwd ≠ .terminated)
    ∧ (∀ (stdin : List Char) (env : ShellEnv) (cwd : String),
        (lsh_loop_iteration stdin env cwd).1.result = .signal 0 →
        (lsh_loop_iteration stdin env cwd).1.builtinCalled = some "exit") := by
  refine ⟨fun env cwd => rfl, ?_, ?_⟩
  · intro fuel
    induction fuel with
    | zero => intro envs i cwd; simp [lsh_loop_go]
    | succ fuel ih => exact fun envs i cwd => ih envs (i + 1) cwd
  · intro stdin env cwd h
    have h2 : (lsh_execute (lsh_split_line (lsh_read_line stdin).1.data) env cwd).result =
        .signal 0 := h
    have hexit := (execute_signal_zero_iff _ env cwd 0 h2).mp rfl
    have h3 := execute_exit _ env cwd hexit
    show (lsh_execute (lsh_split_line (lsh_read_line stdin).1.data) env cwd).builtinCalled =
      some "exit"
    rw [h3]

/-- Witness for C10: the line `"exit"` (terminated by EOF) ends the loop
through the exit builtin. -/
theorem eof_never_terminates_witness :
    (lsh_loop_iteration "exit".data env0 "/").1.builtinCalled = some "exit" :=
  eof_never_terminates.2.2 "exit".data env0 "/" rfl

end Lsh
